import Mathlib

/-!
# Verification of the Snowflake ID generator (`utils/generator_util.py`)

This file shallowly embeds the Snowflake identifier generator of the
repository into Lean.  Python's arbitrary-precision integers are modelled
by `Int`; the wall clock is modelled by an explicit list of millisecond
readings that successive calls to `_get_current_timestamp_millis` consume
(the first element is the reading taken at the top of `generate_id`, the
remaining elements feed the busy-wait loop of `_wait_for_next_millisecond`);
a raised `ValueError` is modelled by an explicit result constructor, and a
busy-wait loop that never observes an advancing clock is modelled by the
`diverge` result (the list of readings is exhausted).

Python bitwise semantics on arbitrary-precision integers (two's complement
with an infinite sign extension) coincide with Mathlib's `Int.lor`,
`Int.land` and `Int.xor`; Python's `x << n` is exactly `x * 2 ^ n` and
`x >> n` is exactly floor division `Int.fdiv x (2 ^ n)`.
-/

/-- Python's `x << n` on arbitrary-precision integers is exact
multiplication by `2 ^ n`, also for negative `x`. -/
def pyShiftLeft (x : Int) (n : Nat) : Int := x * 2 ^ n

/-- Python's `x >> n` on arbitrary-precision integers is floor division
by `2 ^ n`, also for negative `x`. -/
def pyShiftRight (x : Int) (n : Nat) : Int := Int.fdiv x (2 ^ n)

/-- The mutable fields of a `SnowflakeIdGenerator` instance
(`_datacenter_id`, `_worker_id`, `_sequence_number`, `_last_timestamp`). -/
structure SnowflakeState where
  datacenter_id : Int
  worker_id : Int
  sequence_number : Int
  last_timestamp : Int
deriving DecidableEq, Repr

namespace SnowflakeIdGenerator

/-- `EPOCH_TIMESTAMP = 1288834974657` (Twitter epoch, milliseconds). -/
def EPOCH_TIMESTAMP : Int := 1288834974657

/-- `DATACENTER_ID_BITS = 5`. -/
def DATACENTER_ID_BITS : Nat := 5

/-- `WORKER_ID_BITS = 5`. -/
def WORKER_ID_BITS : Nat := 5

/-- `SEQUENCE_BITS = 12`. -/
def SEQUENCE_BITS : Nat := 12

/-- `_calculate_max_value(bits)` returns `-1 ^ (-1 << bits)` (Python `^`
is bitwise xor, `<<` is the arithmetic shift). -/
def calculate_max_value (bits : Nat) : Int :=
  Int.xor (-1) (pyShiftLeft (-1) bits)

/-- `self._max_datacenter_id` as computed in `__init__`. -/
def max_datacenter_id : Int := calculate_max_value DATACENTER_ID_BITS

/-- `self._max_worker_id` as computed in `__init__`. -/
def max_worker_id : Int := calculate_max_value WORKER_ID_BITS

/-- `self._max_sequence` as computed in `__init__`. -/
def max_sequence : Int := calculate_max_value SEQUENCE_BITS

/-- `self._worker_id_shift = SEQUENCE_BITS`. -/
def worker_id_shift : Nat := SEQUENCE_BITS

/-- `self._datacenter_id_shift = SEQUENCE_BITS + WORKER_ID_BITS`. -/
def datacenter_id_shift : Nat := SEQUENCE_BITS + WORKER_ID_BITS

/-- `self._timestamp_shift = SEQUENCE_BITS + WORKER_ID_BITS + DATACENTER_ID_BITS`. -/
def timestamp_shift : Nat := SEQUENCE_BITS + WORKER_ID_BITS + DATACENTER_ID_BITS

/-- `_validate_ids`: raises `ValueError` when either id is outside
`0 .. max`; Python's chained comparison `0 <= x <= m` is the conjunction. -/
def validate_ids (datacenter_id worker_id : Int) : Except String Unit :=
  let max_datacenter := calculate_max_value DATACENTER_ID_BITS
  let max_worker := calculate_max_value WORKER_ID_BITS
  if ¬ (0 ≤ datacenter_id ∧ datacenter_id ≤ max_datacenter) then
    Except.error (s!"データセンターIDは0から{max_datacenter}の範囲で指定してください")
  else if ¬ (0 ≤ worker_id ∧ worker_id ≤ max_worker) then
    Except.error (s!"ワーカーIDは0から{max_worker}の範囲で指定してください")
  else
    Except.ok ()

/-- `__init__`: validate, then set `_sequence_number = 0` and
`_last_timestamp = -1` (the "never observed" sentinel). -/
def init (datacenter_id worker_id : Int) : Except String SnowflakeState :=
  match validate_ids datacenter_id worker_id with
  | Except.error e => Except.error e
  | Except.ok _ =>
    Except.ok
      { datacenter_id := datacenter_id, worker_id := worker_id,
        sequence_number := 0, last_timestamp := -1 }

/-- `_build_snowflake_id`:
`((timestamp - EPOCH) << 22) | (datacenter_id << 17) | (worker_id << 12) | sequence`. -/
def build_snowflake_id (s : SnowflakeState) (timestamp : Int) : Int :=
  Int.lor
    (Int.lor
      (Int.lor (pyShiftLeft (timestamp - EPOCH_TIMESTAMP) timestamp_shift)
        (pyShiftLeft s.datacenter_id datacenter_id_shift))
      (pyShiftLeft s.worker_id worker_id_shift))
    s.sequence_number

/-- `_wait_for_next_millisecond`: re-read the clock while the reading is
`≤ last_timestamp`; return the first strictly greater reading.  `none`
models a busy-wait that never sees the clock advance. -/
def wait_for_next_millisecond (last_timestamp : Int) : List Int → Option Int
  | [] => none
  | t :: ts =>
    if t ≤ last_timestamp then wait_for_next_millisecond last_timestamp ts
    else some t

/-- Outcome of one `generate_id` call: a returned identifier together with
the instance state after the call, a raised `ValueError` (clock moved
backward), or non-termination of the busy-wait loop. -/
inductive GenResult where
  | ok (id : Int) (state : SnowflakeState)
  | clockRegression
  | diverge
deriving DecidableEq, Repr

/-- `generate_id` under the instance lock, with the clock readings the
call will observe passed explicitly (head = reading at the top of the
call, tail = readings of the busy-wait loop). -/
def generate_id (s : SnowflakeState) : List Int → GenResult
  | [] => GenResult.diverge
  | current :: rest =>
    if current < s.last_timestamp then
      GenResult.clockRegression
    else if current = s.last_timestamp then
      let seq := Int.land (s.sequence_number + 1) max_sequence
      if seq = 0 then
        match wait_for_next_millisecond s.last_timestamp rest with
        | none => GenResult.diverge
        | some t =>
          let s' : SnowflakeState :=
            { s with sequence_number := seq, last_timestamp := t }
          GenResult.ok (build_snowflake_id s' t) s'
      else
        let s' : SnowflakeState :=
          { s with sequence_number := seq, last_timestamp := current }
        GenResult.ok (build_snowflake_id s' current) s'
    else
      let s' : SnowflakeState :=
        { s with sequence_number := 0, last_timestamp := current }
      GenResult.ok (build_snowflake_id s' current) s'

end SnowflakeIdGenerator

open SnowflakeIdGenerator in
/-- A sequence of `generate_id` calls on one instance, each with its own
clock readings.  A raised `ValueError` is caught by the caller and leaves
the instance state untouched (the `raise` happens before any mutation); a
diverging call never returns, so the run stops there. -/
def runCalls (s : SnowflakeState) : List (List Int) → List Int × SnowflakeState
  | [] => ([], s)
  | tr :: trs =>
    match generate_id s tr with
    | GenResult.ok i s' =>
      let r := runCalls s' trs
      (i :: r.1, r.2)
    | GenResult.clockRegression => runCalls s trs
    | GenResult.diverge => ([], s)

/-- `get_global_id_generator`: the module-level `_global_generator`
singleton is threaded explicitly.  Returns the generator handed to the
caller together with the new value of `_global_generator`; a `ValueError`
raised by the constructor propagates and leaves the global unset. -/
def get_global_id_generator (glob : Option SnowflakeState)
    (datacenter_id worker_id : Int) :
    Except String (SnowflakeState × Option SnowflakeState) :=
  match glob with
  | none =>
    match SnowflakeIdGenerator.init datacenter_id worker_id with
    | Except.error e => Except.error e
    | Except.ok g => Except.ok (g, some g)
  | some g => Except.ok (g, some g)

/-- Outcome of `create_unique_id_with_prefix`: a returned string, a
raised `ValueError`, or non-termination of the busy-wait loop. -/
inductive StrResult where
  | ok (s : String)
  | valueError (e : String)
  | diverge
deriving DecidableEq, Repr

/-- `create_unique_id_with_prefix(prefix, datacenter_id, worker_id)`:
builds a brand-new `SnowflakeIdGenerator(datacenter_id, worker_id)`,
generates one id from it and returns `f"{prefix}{snowflake_id}"`. -/
def create_unique_id_with_prefix (pre : String) (datacenter_id worker_id : Int)
    (clock : List Int) : StrResult :=
  match SnowflakeIdGenerator.init datacenter_id worker_id with
  | Except.error e => StrResult.valueError e
  | Except.ok id_generator =>
    match SnowflakeIdGenerator.generate_id id_generator clock with
    | SnowflakeIdGenerator.GenResult.ok snowflake_id _ =>
      StrResult.ok (pre ++ toString snowflake_id)
    | SnowflakeIdGenerator.GenResult.clockRegression =>
      StrResult.valueError ("システムクロックが逆行しました。ID生成を拒否します。")
    | SnowflakeIdGenerator.GenResult.diverge => StrResult.diverge

/-- The bounds that `__init__` establishes and every `generate_id` call
preserves: both configured ids are in `0 .. 31` and the sequence counter
is in `0 .. 4095`. -/
def ValidState (s : SnowflakeState) : Prop :=
  0 ≤ s.datacenter_id ∧ s.datacenter_id ≤ 31 ∧
    0 ≤ s.worker_id ∧ s.worker_id ≤ 31 ∧
    0 ≤ s.sequence_number ∧ s.sequence_number ≤ 4095

instance : DecidablePred ValidState := fun s => by
  unfold ValidState
  infer_instance

/-- The identifier `_build_snowflake_id` composes on a post-call state, in
plain arithmetic form: every successful call returns exactly this value of
its post-call state. -/
def stateKeyId (s : SnowflakeState) : Int :=
  (s.last_timestamp - SnowflakeIdGenerator.EPOCH_TIMESTAMP) * 2 ^ 22 +
    s.datacenter_id * 2 ^ 17 + s.worker_id * 2 ^ 12 + s.sequence_number

/-!
## Bitwise arithmetic on arbitrary-precision integers

Python composes the identifier with `|` and updates the sequence with `&`.
The lemmas below convert those bitwise operations to ordinary arithmetic:
`x ||| y = x + y` when the operands occupy disjoint bit ranges (also for
negative `x`, in the infinite two's complement view), and
`z &&& (2 ^ k - 1) = z % 2 ^ k` for every integer `z`.
-/

namespace SnowflakeBits

/-- Low bits of `2 ^ k * c + b` are the bits of `b`. -/
lemma testBit_two_pow_mul_add_of_lt (c : Nat) :
    ∀ i k b : Nat, i < k → Nat.testBit (2 ^ k * c + b) i = Nat.testBit b i := by
  intro i
  induction i with
  | zero =>
    intro k b hk
    match k, hk with
    | k + 1, _ =>
      rw [Nat.testBit_zero, Nat.testBit_zero, decide_eq_decide]
      obtain ⟨m, hm⟩ : ∃ m, 2 ^ (k + 1) * c = 2 * m := ⟨2 ^ k * c, by ring⟩
      rw [hm]
      omega
  | succ i ih =>
    intro k b hk
    match k, hk with
    | k + 1, hk =>
      rw [Nat.testBit_succ, Nat.testBit_succ]
      have hsplit : 2 ^ (k + 1) * c + b = 2 * (2 ^ k * c) + b := by ring
      rw [hsplit]
      obtain ⟨m, hm⟩ : ∃ m, 2 ^ k * c = m := ⟨_, rfl⟩
      rw [hm]
      have hdiv : (2 * m + b) / 2 = m + b / 2 := by omega
      rw [hdiv, ← hm]
      exact ih k (b / 2) (by omega)

/-- High bits of `2 ^ k * c + b` (with `b < 2 ^ k`) are the bits of
`2 ^ k * c`. -/
lemma testBit_two_pow_mul_add_of_ge (c : Nat) :
    ∀ k b i : Nat, b < 2 ^ k → k ≤ i →
      Nat.testBit (2 ^ k * c + b) i = Nat.testBit (2 ^ k * c) i := by
  intro k
  induction k with
  | zero =>
    intro b i hb _
    have hb0 : b = 0 := by omega
    simp [hb0]
  | succ k ih =>
    intro b i hb hk
    match i, hk with
    | i + 1, hk =>
      rw [Nat.testBit_succ, Nat.testBit_succ]
      have hp : 2 ^ (k + 1) = 2 * 2 ^ k := by ring
      have hsplit : 2 ^ (k + 1) * c + b = 2 * (2 ^ k * c) + b := by ring
      have hsplit2 : 2 ^ (k + 1) * c = 2 * (2 ^ k * c) := by ring
      rw [hsplit, hsplit2]
      obtain ⟨m, hm⟩ : ∃ m, 2 ^ k * c = m := ⟨_, rfl⟩
      rw [hm]
      have h1 : (2 * m + b) / 2 = m + b / 2 := by omega
      have h2 : 2 * m / 2 = m := by omega
      rw [h1, h2, ← hm]
      exact ih (b / 2) i (by omega) (by omega)

/-- Bitwise complement inside a `k`-bit window:
`2 ^ k - 1 - b` has exactly the flipped low bits of `b`. -/
lemma testBit_two_pow_sub_one_sub :
    ∀ k b i : Nat, b < 2 ^ k → i < k →
      Nat.testBit (2 ^ k - 1 - b) i = ! Nat.testBit b i := by
  intro k
  induction k with
  | zero => omega
  | succ k ih =>
    intro b i hb hi
    have hp : 2 ^ (k + 1) = 2 * 2 ^ k := by ring
    cases i with
    | zero =>
      rw [Nat.testBit_zero, Nat.testBit_zero, ← decide_not, decide_eq_decide]
      omega
    | succ i =>
      rw [Nat.testBit_succ, Nat.testBit_succ]
      have h1 : (2 ^ (k + 1) - 1 - b) / 2 = 2 ^ k - 1 - b / 2 := by omega
      rw [h1]
      exact ih (b / 2) i (by omega) (by omega)

/-- `2 ^ k - 1` has all of its low `k` bits set. -/
lemma testBit_two_pow_sub_one_of_lt {k i : Nat} (h : i < k) :
    Nat.testBit (2 ^ k - 1) i = true := by
  have h0 : (0 : Nat) < 2 ^ k := Nat.pos_pow_of_pos k (by norm_num)
  have := testBit_two_pow_sub_one_sub k 0 i h0 h
  simpa using this

/-- Disjoint-range bitwise or is addition: `2 ^ k * c ||| b = 2 ^ k * c + b`
when `b < 2 ^ k`. -/
lemma or_two_pow_mul_add (k c b : Nat) (hb : b < 2 ^ k) :
    2 ^ k * c ||| b = 2 ^ k * c + b := by
  apply Nat.eq_of_testBit_eq
  intro i
  rw [Nat.testBit_or]
  rcases Nat.lt_or_ge i k with h | h
  · rw [testBit_two_pow_mul_add_of_lt c i k b h]
    have h0 : Nat.testBit (2 ^ k * c) i = false := by
      have := testBit_two_pow_mul_add_of_lt c i k 0 h
      simpa using this
    rw [h0, Bool.false_or]
  · rw [testBit_two_pow_mul_add_of_ge c k b i hb h]
    have h0 : Nat.testBit b i = false :=
      Nat.testBit_lt_two_pow
        (lt_of_lt_of_le hb (Nat.pow_le_pow_right (by norm_num) h))
    rw [h0, Bool.or_false]

/-- On a number whose low `k` bits are all ones, clearing the bits of
`b < 2 ^ k` is subtraction. -/
lemma ldiff_two_pow_mul_add (k d b : Nat) (hb : b < 2 ^ k) :
    Nat.ldiff (2 ^ k * d + (2 ^ k - 1)) b = 2 ^ k * d + (2 ^ k - 1) - b := by
  have h0 : (0 : Nat) < 2 ^ k := Nat.pos_pow_of_pos k (by norm_num)
  have hb' : 2 ^ k - 1 - b < 2 ^ k := by omega
  have hone : 2 ^ k - 1 < 2 ^ k := by omega
  have hsub : 2 ^ k * d + (2 ^ k - 1) - b = 2 ^ k * d + (2 ^ k - 1 - b) := by omega
  rw [hsub]
  apply Nat.eq_of_testBit_eq
  intro i
  rw [Nat.testBit_ldiff]
  rcases Nat.lt_or_ge i k with h | h
  · rw [testBit_two_pow_mul_add_of_lt d i k (2 ^ k - 1) h,
      testBit_two_pow_mul_add_of_lt d i k (2 ^ k - 1 - b) h,
      testBit_two_pow_sub_one_of_lt h, Bool.true_and,
      testBit_two_pow_sub_one_sub k b i hb h]
  · rw [testBit_two_pow_mul_add_of_ge d k (2 ^ k - 1) i hone h,
      testBit_two_pow_mul_add_of_ge d k (2 ^ k - 1 - b) i hb' h]
    have h0b : Nat.testBit b i = false :=
      Nat.testBit_lt_two_pow
        (lt_of_lt_of_le hb (Nat.pow_le_pow_right (by norm_num) h))
    rw [h0b]
    simp

/-- Masking with all-ones: `Nat.ldiff (2 ^ k - 1) a = 2 ^ k - 1 - a % 2 ^ k`. -/
lemma ldiff_two_pow_sub_one (k a : Nat) :
    Nat.ldiff (2 ^ k - 1) a = 2 ^ k - 1 - a % 2 ^ k := by
  have h0 : (0 : Nat) < 2 ^ k := Nat.pos_pow_of_pos k (by norm_num)
  have hmod : a % 2 ^ k < 2 ^ k := Nat.mod_lt a h0
  apply Nat.eq_of_testBit_eq
  intro i
  rw [Nat.testBit_ldiff]
  rcases Nat.lt_or_ge i k with h | h
  · rw [testBit_two_pow_sub_one_of_lt h, Bool.true_and,
      testBit_two_pow_sub_one_sub k (a % 2 ^ k) i hmod h,
      Nat.testBit_mod_two_pow]
    simp [h]
  · have hk2 : (2 : Nat) ^ k ≤ 2 ^ i := Nat.pow_le_pow_right (by norm_num) h
    have h1 : Nat.testBit (2 ^ k - 1) i = false :=
      Nat.testBit_lt_two_pow (by omega)
    have h2 : Nat.testBit (2 ^ k - 1 - a % 2 ^ k) i = false :=
      Nat.testBit_lt_two_pow (by omega)
    rw [h1, h2]
    simp

/-- Python `x | y` is addition when `x` is a multiple of `2 ^ k` (possibly
negative) and `0 ≤ y < 2 ^ k`. -/
lemma int_lor_add (k : Nat) (x y : Int) (hx : (2 ^ k : Int) ∣ x) (hy0 : 0 ≤ y)
    (hyk : y < 2 ^ k) : Int.lor x y = x + y := by
  obtain ⟨b, rfl⟩ : ∃ b : Nat, y = (b : Int) := ⟨y.toNat, (Int.toNat_of_nonneg hy0).symm⟩
  have hbk : b < 2 ^ k := by exact_mod_cast hyk
  cases x with
  | ofNat a =>
    obtain ⟨c, hc⟩ : ∃ c : Nat, a = 2 ^ k * c := by
      have : (2 ^ k : Nat) ∣ a := by
        have := hx
        rwa [Int.ofNat_eq_natCast, ← Nat.cast_ofNat (n := 2), ← Nat.cast_pow,
          Int.natCast_dvd_natCast] at this
      exact this
    subst hc
    have e : Int.lor (Int.ofNat (2 ^ k * c)) (Int.ofNat b) =
        Int.ofNat (2 ^ k * c ||| b) := rfl
    rw [show ((b : Nat) : Int) = Int.ofNat b from rfl, e,
      or_two_pow_mul_add k c b hbk]
    simp only [Int.ofNat_eq_natCast]
    push_cast
    ring
  | negSucc a =>
    have hdvd : (2 ^ k : Nat) ∣ a + 1 := by
      have h1 : (2 ^ k : Int) ∣ ((a : Int) + 1) := by
        have h2 : Int.negSucc a = -((a : Int) + 1) := Int.negSucc_eq a
        have := (dvd_neg).mpr hx
        rwa [h2, neg_neg] at this
      rwa [← Nat.cast_one, ← Nat.cast_add, ← Nat.cast_ofNat (n := 2),
        ← Nat.cast_pow, Int.natCast_dvd_natCast] at h1
    obtain ⟨c, hc⟩ := hdvd
    have h0 : (0 : Nat) < 2 ^ k := Nat.pos_pow_of_pos k (by norm_num)
    have hc1 : 1 ≤ c := by
      rcases Nat.eq_zero_or_pos c with h | h
      · subst h
        simp at hc
      · exact h
    obtain ⟨d, rfl⟩ : ∃ d, c = d + 1 := ⟨c - 1, by omega⟩
    have hmul : 2 ^ k * (d + 1) = 2 ^ k * d + 2 ^ k := by ring
    rw [hmul] at hc
    have ha : a = 2 ^ k * d + (2 ^ k - 1) := by omega
    have e : Int.lor (Int.negSucc a) (Int.ofNat b) =
        Int.negSucc (Nat.ldiff a b) := rfl
    rw [show ((b : Nat) : Int) = Int.ofNat b from rfl, e]
    have hldiff : Nat.ldiff a b = a - b := by
      rw [ha, ldiff_two_pow_mul_add k d b hbk]
    have hba : b ≤ a := by omega
    rw [hldiff, Int.negSucc_eq, Int.negSucc_eq]
    have hcast : ((a - b : Nat) : Int) = (a : Int) - b := by
      exact_mod_cast Int.ofNat_sub hba
    rw [hcast]
    simp only [Int.ofNat_eq_natCast]
    ring

/-- Floor-shifting off the low `n` bits of `r + A * 2 ^ n` with
`0 ≤ r < 2 ^ n` recovers `A`, also for negative `A`. -/
lemma pyShiftRight_add_mul (r A : Int) (n : Nat) (h0 : 0 ≤ r)
    (h1 : r < 2 ^ n) : pyShiftRight (r + A * 2 ^ n) n = A := by
  unfold pyShiftRight
  rw [Int.fdiv_eq_ediv _ (by positivity),
    Int.add_mul_ediv_right r A (by positivity),
    Int.ediv_eq_zero_of_lt h0 h1, zero_add]

/-- The low `n` bits of `r + A * 2 ^ n` with `0 ≤ r < 2 ^ n` are `r`,
also for negative `A`. -/
lemma emod_add_mul (r A : Int) (n : Nat) (h0 : 0 ≤ r) (h1 : r < 2 ^ n) :
    (r + A * 2 ^ n) % 2 ^ n = r := by
  rw [Int.add_mul_emod_self, Int.emod_eq_of_lt h0 h1]

/-- Python `z & (2 ^ k - 1)` is `z % 2 ^ k` (Euclidean remainder) for every
integer `z`, also negative ones. -/
lemma int_land_two_pow_sub_one (k : Nat) (z : Int) :
    Int.land z (2 ^ k - 1) = z % 2 ^ k := by
  have h0 : (0 : Nat) < 2 ^ k := Nat.pos_pow_of_pos k (by norm_num)
  have hcast : ((2 : Int) ^ k - 1) = Int.ofNat (2 ^ k - 1) := by
    have : ((2 ^ k - 1 : Nat) : Int) = (2 ^ k : Nat) - 1 := by
      exact_mod_cast Int.ofNat_sub h0
    rw [Int.ofNat_eq_natCast, this]
    push_cast
    ring
  cases z with
  | ofNat a =>
    have e : Int.land (Int.ofNat a) (Int.ofNat (2 ^ k - 1)) =
        Int.ofNat (a &&& (2 ^ k - 1)) := rfl
    rw [hcast, e, Nat.and_pow_two_sub_one_eq_mod]
    simp only [Int.ofNat_eq_natCast]
    push_cast
    ring_nf
  | negSucc a =>
    have e : Int.land (Int.negSucc a) (Int.ofNat (2 ^ k - 1)) =
        Int.ofNat (Nat.ldiff (2 ^ k - 1) a) := rfl
    rw [hcast, e, ldiff_two_pow_sub_one]
    have hdm : 2 ^ k * (a / 2 ^ k) + a % 2 ^ k = a := Nat.div_add_mod a (2 ^ k)
    have hmod : a % 2 ^ k < 2 ^ k := Nat.mod_lt a h0
    have key : Int.negSucc a =
        ((2 ^ k - 1 - a % 2 ^ k : Nat) : Int) +
          (2 ^ k : Int) * (-(((a / 2 ^ k : Nat)) : Int) - 1) := by
      have hc1 : ((2 ^ k - 1 - a % 2 ^ k : Nat) : Int) =
          ((2 ^ k - 1 : Nat) : Int) - ((a % 2 ^ k : Nat) : Int) := by
        exact_mod_cast Int.ofNat_sub (by omega)
      have hc2 : ((2 ^ k - 1 : Nat) : Int) = ((2 ^ k : Nat) : Int) - 1 := by
        exact_mod_cast Int.ofNat_sub h0
      have hdmZ : ((2 ^ k : Nat) : Int) * ((a / 2 ^ k : Nat) : Int) +
          ((a % 2 ^ k : Nat) : Int) = (a : Int) := by exact_mod_cast hdm
      rw [Int.negSucc_eq, hc1, hc2]
      have hpk : ((2 ^ k : Nat) : Int) = (2 ^ k : Int) := by push_cast; ring
      rw [hpk] at hdmZ ⊢
      linear_combination hdmZ
    rw [show Int.ofNat (2 ^ k - 1 - a % 2 ^ k) =
        ((2 ^ k - 1 - a % 2 ^ k : Nat) : Int) from rfl]
    rw [key, Int.add_mul_emod_self_left]
    rw [Int.emod_eq_of_lt (by positivity) ?hlt]
    case hlt =>
      have : (2 ^ k - 1 - a % 2 ^ k : Nat) < 2 ^ k := by omega
      calc ((2 ^ k - 1 - a % 2 ^ k : Nat) : Int) < ((2 ^ k : Nat) : Int) := by
            exact_mod_cast this
        _ = (2 ^ k : Int) := by push_cast; ring

end SnowflakeBits

/-!
## Facts about the generator
-/

namespace SnowflakeIdGenerator

lemma max_sequence_eq : max_sequence = 4095 := by decide

lemma calc_max_value_five : calculate_max_value 5 = 31 := by decide

/-- On a state within bounds, the bitwise composition of
`_build_snowflake_id` is plain arithmetic. -/
lemma build_snowflake_id_eq_sum (s : SnowflakeState) (t : Int) (h : ValidState s) :
    build_snowflake_id s t =
      (t - EPOCH_TIMESTAMP) * 2 ^ 22 + s.datacenter_id * 2 ^ 17 +
        s.worker_id * 2 ^ 12 + s.sequence_number := by
  obtain ⟨hd0, hd1, hw0, hw1, hs0, hs1⟩ := h
  unfold build_snowflake_id pyShiftLeft
  have e1 : timestamp_shift = 22 := rfl
  have e2 : datacenter_id_shift = 17 := rfl
  have e3 : worker_id_shift = 12 := rfl
  rw [e1, e2, e3]
  have hd22 : s.datacenter_id * 2 ^ 17 < 2 ^ 22 := by
    calc s.datacenter_id * 2 ^ 17 ≤ 31 * 2 ^ 17 :=
          mul_le_mul_of_nonneg_right hd1 (by norm_num)
      _ < 2 ^ 22 := by norm_num
  have hw17 : s.worker_id * 2 ^ 12 < 2 ^ 17 := by
    calc s.worker_id * 2 ^ 12 ≤ 31 * 2 ^ 12 :=
          mul_le_mul_of_nonneg_right hw1 (by norm_num)
      _ < 2 ^ 17 := by norm_num
  rw [SnowflakeBits.int_lor_add 22 _ _ ⟨t - EPOCH_TIMESTAMP, by ring⟩
      (mul_nonneg hd0 (by norm_num)) hd22]
  rw [SnowflakeBits.int_lor_add 17 _ _
      ⟨(t - EPOCH_TIMESTAMP) * 2 ^ 5 + s.datacenter_id, by ring⟩
      (mul_nonneg hw0 (by norm_num)) hw17]
  rw [SnowflakeBits.int_lor_add 12 _ _
      ⟨(t - EPOCH_TIMESTAMP) * 2 ^ 10 + s.datacenter_id * 2 ^ 5 + s.worker_id,
        by ring⟩ hs0 (by linarith)]

/-- The busy-wait loop only returns a reading strictly greater than the
last-seen timestamp. -/
lemma wait_gt (last : Int) : ∀ (l : List Int) (t : Int),
    wait_for_next_millisecond last l = some t → last < t := by
  intro l
  induction l with
  | nil =>
    intro t h
    simp [wait_for_next_millisecond] at h
  | cons a l ih =>
    intro t h
    simp only [wait_for_next_millisecond] at h
    by_cases ha : a ≤ last
    · rw [if_pos ha] at h
      exact ih t h
    · rw [if_neg ha] at h
      have := Option.some.inj h
      omega

/-- Python `&` with the sequence mask is remainder mod `4096`. -/
lemma land_max_sequence (z : Int) : Int.land z max_sequence = z % 4096 := by
  rw [max_sequence_eq]
  have h := SnowflakeBits.int_land_two_pow_sub_one 12 z
  norm_num at h
  exact h

/-- Successful construction yields exactly the fresh state and implies the
configured ids were in range. -/
lemma init_ok {d w : Int} {s : SnowflakeState}
    (h : SnowflakeIdGenerator.init d w = Except.ok s) :
    s = ⟨d, w, 0, -1⟩ ∧ 0 ≤ d ∧ d ≤ 31 ∧ 0 ≤ w ∧ w ≤ 31 := by
  unfold init validate_ids at h
  simp only [show calculate_max_value DATACENTER_ID_BITS = 31 from by decide,
    show calculate_max_value WORKER_ID_BITS = 31 from by decide] at h
  split_ifs at h with h1 h2
  simp only [Except.ok.injEq] at h
  exact ⟨h.symm, h1.1, h1.2, h2.1, h2.2⟩

/-- A freshly constructed state is within bounds. -/
lemma init_valid {d w : Int} {s : SnowflakeState}
    (h : SnowflakeIdGenerator.init d w = Except.ok s) : ValidState s := by
  obtain ⟨rfl, h1, h2, h3, h4⟩ := init_ok h
  exact ⟨h1, h2, h3, h4, by norm_num, by norm_num⟩

/-- The step lemma for one successful `generate_id` call: bounds are
preserved, the configured ids are unchanged, the returned identifier is
the arithmetic composition of the post-call state, and the
(timestamp, sequence) pair strictly increases lexicographically. -/
lemma generate_id_ok {s : SnowflakeState} {tr : List Int} {i : Int}
    {s' : SnowflakeState} (hv : ValidState s)
    (h : generate_id s tr = GenResult.ok i s') :
    ValidState s' ∧ s'.datacenter_id = s.datacenter_id ∧
      s'.worker_id = s.worker_id ∧ i = stateKeyId s' ∧
      (s.last_timestamp < s'.last_timestamp ∨
        (s.last_timestamp = s'.last_timestamp ∧
          s.sequence_number < s'.sequence_number)) := by
  obtain ⟨hd0, hd1, hw0, hw1, hs0, hs1⟩ := hv
  cases tr with
  | nil => simp [generate_id] at h
  | cons current rest =>
    simp only [generate_id] at h
    by_cases h1 : current < s.last_timestamp
    · rw [if_pos h1] at h
      simp at h
    · rw [if_neg h1] at h
      by_cases h2 : current = s.last_timestamp
      · rw [if_pos h2] at h
        rw [land_max_sequence] at h
        by_cases h3 : (s.sequence_number + 1) % 4096 = 0
        · rw [if_pos h3] at h
          cases hwait : wait_for_next_millisecond s.last_timestamp rest with
          | none =>
            rw [hwait] at h
            simp at h
          | some t =>
            rw [hwait] at h
            simp only [GenResult.ok.injEq] at h
            obtain ⟨hi, hs'⟩ := h
            subst hs'
            have hgt := wait_gt s.last_timestamp rest t hwait
            have hv' : ValidState
                { s with
                    sequence_number := (s.sequence_number + 1) % 4096,
                    last_timestamp := t } := by
              refine ⟨hd0, hd1, hw0, hw1, ?_, ?_⟩ <;> simp <;> omega
            refine ⟨hv', rfl, rfl, ?_, Or.inl (by simpa using hgt)⟩
            rw [← hi, build_snowflake_id_eq_sum _ _ hv']
            rfl
        · rw [if_neg h3] at h
          simp only [GenResult.ok.injEq] at h
          obtain ⟨hi, hs'⟩ := h
          subst hs'
          have hv' : ValidState
              { s with
                  sequence_number := (s.sequence_number + 1) % 4096,
                  last_timestamp := current } := by
            refine ⟨hd0, hd1, hw0, hw1, ?_, ?_⟩ <;> simp <;> omega
          refine ⟨hv', rfl, rfl, ?_, Or.inr ⟨by simpa using h2.symm, ?_⟩⟩
          · rw [← hi, build_snowflake_id_eq_sum _ _ hv']
            rfl
          · simp
            omega
      · rw [if_neg h2] at h
        simp only [GenResult.ok.injEq] at h
        obtain ⟨hi, hs'⟩ := h
        subst hs'
        have hv' : ValidState
            { s with sequence_number := 0, last_timestamp := current } := by
          exact ⟨hd0, hd1, hw0, hw1, by norm_num, by norm_num⟩
        refine ⟨hv', rfl, rfl, ?_, Or.inl (by simp; omega)⟩
        rw [← hi, build_snowflake_id_eq_sum _ _ hv']
        rfl

/-- Structural form of a successful call, with no assumption on the
starting state: the returned identifier is `_build_snowflake_id` applied
to the post-call state and its timestamp, and the configured ids are
untouched. -/
lemma generate_id_ok_build {s : SnowflakeState} {tr : List Int} {i : Int}
    {s' : SnowflakeState} (h : generate_id s tr = GenResult.ok i s') :
    i = build_snowflake_id s' s'.last_timestamp ∧
      s'.datacenter_id = s.datacenter_id ∧ s'.worker_id = s.worker_id := by
  cases tr with
  | nil => simp [generate_id] at h
  | cons current rest =>
    simp only [generate_id] at h
    by_cases h1 : current < s.last_timestamp
    · rw [if_pos h1] at h
      simp at h
    · rw [if_neg h1] at h
      by_cases h2 : current = s.last_timestamp
      · rw [if_pos h2] at h
        by_cases h3 : Int.land (s.sequence_number + 1) max_sequence = 0
        · rw [if_pos h3] at h
          cases hwait : wait_for_next_millisecond s.last_timestamp rest with
          | none =>
            rw [hwait] at h
            simp at h
          | some t =>
            rw [hwait] at h
            simp only [GenResult.ok.injEq] at h
            obtain ⟨hi, hs'⟩ := h
            subst hs'
            exact ⟨hi.symm, rfl, rfl⟩
        · rw [if_neg h3] at h
          simp only [GenResult.ok.injEq] at h
          obtain ⟨hi, hs'⟩ := h
          subst hs'
          exact ⟨hi.symm, rfl, rfl⟩
      · rw [if_neg h2] at h
        simp only [GenResult.ok.injEq] at h
        obtain ⟨hi, hs'⟩ := h
        subst hs'
        exact ⟨hi.symm, rfl, rfl⟩

/-- The arithmetic composition is strictly monotone in the lexicographic
(timestamp, sequence) order, for fixed in-range configured ids. -/
lemma stateKeyId_lt_of_key {s s' : SnowflakeState} (hv : ValidState s)
    (hv' : ValidState s') (hd : s'.datacenter_id = s.datacenter_id)
    (hw : s'.worker_id = s.worker_id)
    (hk : s.last_timestamp < s'.last_timestamp ∨
      (s.last_timestamp = s'.last_timestamp ∧
        s.sequence_number < s'.sequence_number)) :
    stateKeyId s < stateKeyId s' := by
  obtain ⟨_, _, _, _, hs0, hs1⟩ := hv
  obtain ⟨_, _, _, _, hs0', hs1'⟩ := hv'
  unfold stateKeyId
  rw [hd, hw]
  rcases hk with h | ⟨h1, h2⟩
  · have hstep : s.last_timestamp + 1 ≤ s'.last_timestamp := h
    have hmul : (s.last_timestamp + 1) * 2 ^ 22 ≤ s'.last_timestamp * 2 ^ 22 :=
      mul_le_mul_of_nonneg_right hstep (by norm_num)
    nlinarith
  · rw [h1]
    linarith

/-- Identifiers emitted along any run are strictly increasing, and all of
them exceed the composition of the starting state. -/
lemma runCalls_pairwise (trs : List (List Int)) : ∀ s : SnowflakeState,
    ValidState s →
      List.Pairwise (· < ·) (runCalls s trs).1 ∧
        ∀ x ∈ (runCalls s trs).1, stateKeyId s < x := by
  induction trs with
  | nil =>
    intro s hv
    simp [runCalls]
  | cons tr trs ih =>
    intro s hv
    simp only [runCalls]
    cases hg : generate_id s tr with
    | clockRegression => exact ih s hv
    | diverge => simp
    | ok i s' =>
      obtain ⟨hv', hd, hw, hi, hk⟩ := generate_id_ok hv hg
      obtain ⟨hp, hgt⟩ := ih s' hv'
      have hlt := stateKeyId_lt_of_key hv hv' hd hw hk
      constructor
      · refine List.pairwise_cons.mpr ⟨?_, hp⟩
        intro x hx
        have := hgt x hx
        rw [hi]
        linarith
      · intro x hx
        rcases List.mem_cons.mp hx with rfl | hx
        · rw [hi]
          exact hlt
        · have := hgt x hx
          linarith

end SnowflakeIdGenerator

/-!
## The claims
-/

open SnowflakeIdGenerator

/-- Claim C1: for every sequence of calls to `generate_id()` on a single
`SnowflakeIdGenerator` instance (serialised by the instance lock), all
returned identifiers are pairwise distinct, regardless of how the clock
behaves on failed calls. -/
theorem snowflake_ids_pairwise_distinct (d w : Int) (s0 : SnowflakeState)
    (h : SnowflakeIdGenerator.init d w = Except.ok s0)
    (trs : List (List Int)) : ((runCalls s0 trs).1).Nodup :=
  List.Pairwise.imp (fun hlt => ne_of_lt hlt)
    (SnowflakeIdGenerator.runCalls_pairwise trs s0
      (SnowflakeIdGenerator.init_valid h)).1

theorem snowflake_ids_pairwise_distinct_witness :
    ((runCalls ⟨1, 1, 0, -1⟩
        [[1288834974658], [1288834974658], [1288834974700]]).1).Nodup :=
  snowflake_ids_pairwise_distinct 1 1 ⟨1, 1, 0, -1⟩ (by rfl) _

/-- Claim C2: on the same instance, every successful call that starts
after an earlier successful call returned yields a strictly larger
identifier; the identifiers emitted along any run are strictly
increasing in call order. -/
theorem snowflake_ids_strictly_monotone (d w : Int) (s0 : SnowflakeState)
    (h : SnowflakeIdGenerator.init d w = Except.ok s0)
    (trs : List (List Int)) :
    List.Pairwise (· < ·) ((runCalls s0 trs).1) :=
  (SnowflakeIdGenerator.runCalls_pairwise trs s0
    (SnowflakeIdGenerator.init_valid h)).1

theorem snowflake_ids_strictly_monotone_witness :
    List.Pairwise (· < ·)
      ((runCalls ⟨1, 1, 0, -1⟩
        [[1288834974658], [1288834974658], [1288834974700]]).1) :=
  snowflake_ids_strictly_monotone 1 1 ⟨1, 1, 0, -1⟩ (by rfl) _

/-- Claim C3: `generate_id()` raises the clock-regression `ValueError` if
and only if the current reading is strictly below the last-seen timestamp;
the failed call emits nothing and mutates nothing (the rest of the run is
as if the call had not happened), and a later call with a strictly
advancing clock succeeds. -/
theorem clock_regression_error_iff :
    (∀ (s : SnowflakeState) (c : Int) (l : List Int),
        generate_id s (c :: l) = GenResult.clockRegression ↔
          c < s.last_timestamp) ∧
    (∀ (s : SnowflakeState) (c : Int) (l : List Int) (rest : List (List Int)),
        c < s.last_timestamp →
          runCalls s ((c :: l) :: rest) = runCalls s rest) ∧
    (∀ (s : SnowflakeState) (c : Int) (l : List Int),
        s.last_timestamp < c →
          ∃ i s', generate_id s (c :: l) = GenResult.ok i s') := by
  have hreg : ∀ (s : SnowflakeState) (c : Int) (l : List Int),
      c < s.last_timestamp →
        generate_id s (c :: l) = GenResult.clockRegression := by
    intro s c l h
    simp only [generate_id]
    rw [if_pos h]
  refine ⟨?_, ?_, ?_⟩
  · intro s c l
    constructor
    · intro h
      by_contra hlt
      simp only [generate_id] at h
      rw [if_neg hlt] at h
      by_cases h2 : c = s.last_timestamp
      · rw [if_pos h2] at h
        by_cases h3 : Int.land (s.sequence_number + 1) max_sequence = 0
        · rw [if_pos h3] at h
          cases hwait : wait_for_next_millisecond s.last_timestamp l with
          | none => rw [hwait] at h; simp at h
          | some t => rw [hwait] at h; simp at h
        · rw [if_neg h3] at h
          simp at h
      · rw [if_neg h2] at h
        simp at h
    · exact hreg s c l
  · intro s c l rest h
    simp only [runCalls]
    rw [hreg s c l h]
  · intro s c l h
    have hne1 : ¬ c < s.last_timestamp := by omega
    have hne2 : ¬ c = s.last_timestamp := by omega
    exact ⟨_, _, by simp only [generate_id]; rw [if_neg hne1, if_neg hne2]⟩

theorem clock_regression_error_iff_witness :
    (generate_id ⟨1, 1, 0, 10⟩ [5] = GenResult.clockRegression ↔
      (5 : Int) < (⟨1, 1, 0, 10⟩ : SnowflakeState).last_timestamp) ∧
    runCalls ⟨1, 1, 0, 10⟩ [[5], [11]] = runCalls ⟨1, 1, 0, 10⟩ [[11]] ∧
    ∃ i s', generate_id ⟨1, 1, 0, 10⟩ [11] = GenResult.ok i s' :=
  ⟨clock_regression_error_iff.1 ⟨1, 1, 0, 10⟩ 5 [],
    clock_regression_error_iff.2.1 ⟨1, 1, 0, 10⟩ 5 [] [[11]] (by decide),
    clock_regression_error_iff.2.2 ⟨1, 1, 0, 10⟩ 11 [] (by decide)⟩

/-- Claim C4: on a reading equal to the last-seen timestamp the sequence
is incremented modulo `4096`; when the increment wraps to `0` the call
busy-waits for a strictly greater reading, uses it as the effective
timestamp and emits the identifier with sequence `0`; the busy-wait skips
readings `≤` last-seen and only returns a strictly greater one. -/
theorem same_millisecond_sequence_rollover :
    (∀ (s : SnowflakeState) (c : Int) (l : List Int) (i : Int)
        (s' : SnowflakeState), c = s.last_timestamp →
        generate_id s (c :: l) = GenResult.ok i s' →
          s'.sequence_number = (s.sequence_number + 1) % 4096) ∧
    (∀ (s : SnowflakeState) (c : Int) (l : List Int) (t : Int),
        c = s.last_timestamp →
        (s.sequence_number + 1) % 4096 = 0 →
        wait_for_next_millisecond s.last_timestamp l = some t →
          s.last_timestamp < t ∧
          generate_id s (c :: l) =
            GenResult.ok
              (build_snowflake_id
                { s with sequence_number := 0, last_timestamp := t } t)
              { s with sequence_number := 0, last_timestamp := t }) ∧
    (∀ (last : Int) (l : List Int) (t : Int), t ≤ last →
        wait_for_next_millisecond last (t :: l) =
          wait_for_next_millisecond last l) ∧
    (∀ (last : Int) (l : List Int) (t : Int),
        wait_for_next_millisecond last l = some t → last < t) := by
  refine ⟨?_, ?_, ?_, SnowflakeIdGenerator.wait_gt⟩
  · intro s c l i s' hc h
    simp only [generate_id] at h
    rw [if_neg (by omega : ¬ c < s.last_timestamp), if_pos hc,
      SnowflakeIdGenerator.land_max_sequence] at h
    by_cases h3 : (s.sequence_number + 1) % 4096 = 0
    · rw [if_pos h3] at h
      cases hwait : wait_for_next_millisecond s.last_timestamp l with
      | none => rw [hwait] at h; simp at h
      | some t =>
        rw [hwait] at h
        simp only [GenResult.ok.injEq] at h
        rw [← h.2]
    · rw [if_neg h3] at h
      simp only [GenResult.ok.injEq] at h
      rw [← h.2]
  · intro s c l t hc h0 hwait
    refine ⟨SnowflakeIdGenerator.wait_gt s.last_timestamp l t hwait, ?_⟩
    simp only [generate_id]
    rw [if_neg (by omega : ¬ c < s.last_timestamp), if_pos hc,
      SnowflakeIdGenerator.land_max_sequence, h0, if_pos rfl, hwait]
  · intro last l t h
    simp only [wait_for_next_millisecond]
    rw [if_pos h]

theorem same_millisecond_sequence_rollover_witness :
    ((⟨1, 1, 1, 1288834974659⟩ : SnowflakeState).sequence_number =
        ((⟨1, 1, 0, 1288834974659⟩ : SnowflakeState).sequence_number + 1) %
          4096) ∧
    ((⟨1, 1, 4095, 1288834974659⟩ : SnowflakeState).last_timestamp <
        1288834974660 ∧
      generate_id ⟨1, 1, 4095, 1288834974659⟩
          [1288834974659, 1288834974659, 1288834974660] =
        GenResult.ok
          (build_snowflake_id ⟨1, 1, 0, 1288834974660⟩ 1288834974660)
          ⟨1, 1, 0, 1288834974660⟩) ∧
    wait_for_next_millisecond 5 [3, 7] = wait_for_next_millisecond 5 [7] ∧
    (5 : Int) < 7 :=
  ⟨same_millisecond_sequence_rollover.1 ⟨1, 1, 0, 1288834974659⟩
      1288834974659 [1288834974659, 1288834974660] 8523777
      ⟨1, 1, 1, 1288834974659⟩ (by decide) (by decide),
    same_millisecond_sequence_rollover.2.1 ⟨1, 1, 4095, 1288834974659⟩
      1288834974659 [1288834974659, 1288834974660] 1288834974660
      (by decide) (by decide) (by decide),
    same_millisecond_sequence_rollover.2.2.1 5 [7] 3 (by decide),
    same_millisecond_sequence_rollover.2.2.2 5 [7] 7 (by decide)⟩

/-- Claim C5: every identifier returned by `generate_id` equals
`((effective_time - EPOCH) << 22) | (datacenter_id << 17) |
(worker_id << 12) | sequence`, where the effective time is the post-call
last-seen timestamp and the sequence is the post-update counter. -/
theorem generated_id_bit_composition (s : SnowflakeState) (tr : List Int)
    (i : Int) (s' : SnowflakeState)
    (h : generate_id s tr = GenResult.ok i s') :
    i = Int.lor
        (Int.lor
          (Int.lor (pyShiftLeft (s'.last_timestamp - EPOCH_TIMESTAMP) 22)
            (pyShiftLeft s.datacenter_id 17))
          (pyShiftLeft s.worker_id 12))
        s'.sequence_number := by
  obtain ⟨hi, hd, hw⟩ := SnowflakeIdGenerator.generate_id_ok_build h
  rw [hi]
  unfold build_snowflake_id
  rw [hd, hw]
  rfl

theorem generated_id_bit_composition_witness :
    (4329472 : Int) = Int.lor
        (Int.lor
          (Int.lor
            (pyShiftLeft
              ((⟨1, 1, 0, 1288834974658⟩ : SnowflakeState).last_timestamp -
                EPOCH_TIMESTAMP) 22)
            (pyShiftLeft (⟨1, 1, 0, -1⟩ : SnowflakeState).datacenter_id 17))
          (pyShiftLeft (⟨1, 1, 0, -1⟩ : SnowflakeState).worker_id 12))
        (⟨1, 1, 0, 1288834974658⟩ : SnowflakeState).sequence_number :=
  generated_id_bit_composition ⟨1, 1, 0, -1⟩ [1288834974658] 4329472
    ⟨1, 1, 0, 1288834974658⟩ (by decide)

/-- Claim C6: the bit fields of every returned identifier round-trip:
`(id >> 12) & 31` is the configured worker id, `(id >> 17) & 31` the
configured datacenter id, `id & 4095` lies in `0 .. 4095`, and
`(id >> 22) + EPOCH` is the effective clock reading of the call. -/
theorem generated_id_bit_field_roundtrip (s : SnowflakeState) (tr : List Int)
    (i : Int) (s' : SnowflakeState) (hv : ValidState s)
    (h : generate_id s tr = GenResult.ok i s') :
    Int.land (pyShiftRight i 12) 31 = s.worker_id ∧
    Int.land (pyShiftRight i 17) 31 = s.datacenter_id ∧
    0 ≤ Int.land i 4095 ∧ Int.land i 4095 ≤ 4095 ∧
    pyShiftRight i 22 + EPOCH_TIMESTAMP = s'.last_timestamp := by
  obtain ⟨hv', hd, hw, hi, hk⟩ := SnowflakeIdGenerator.generate_id_ok hv h
  obtain ⟨hd0, hd1, hw0, hw1, hs0, hs1⟩ := hv'
  unfold stateKeyId at hi
  rw [← hd, ← hw]
  set L := s'.last_timestamp
  set D := s'.datacenter_id
  set W := s'.worker_id
  set Q := s'.sequence_number
  have p12 : (2 : Int) ^ 12 = 4096 := by norm_num
  have p5 : (2 : Int) ^ 5 = 32 := by norm_num
  have hWm : W * 2 ^ 12 ≤ 31 * 2 ^ 12 := mul_le_mul_of_nonneg_right hw1 (by norm_num)
  have hWm0 : 0 ≤ W * 2 ^ 12 := mul_nonneg hw0 (by norm_num)
  have hDm : D * 2 ^ 17 ≤ 31 * 2 ^ 17 := mul_le_mul_of_nonneg_right hd1 (by norm_num)
  have hDm0 : 0 ≤ D * 2 ^ 17 := mul_nonneg hd0 (by norm_num)
  have e12 : i = Q + (W + D * 2 ^ 5 + (L - EPOCH_TIMESTAMP) * 2 ^ 10) * 2 ^ 12 := by
    rw [hi]; ring
  have e17 : i = (Q + W * 2 ^ 12) + (D + (L - EPOCH_TIMESTAMP) * 2 ^ 5) * 2 ^ 17 := by
    rw [hi]; ring
  have e22 : i = (Q + W * 2 ^ 12 + D * 2 ^ 17) +
      (L - EPOCH_TIMESTAMP) * 2 ^ 22 := by
    rw [hi]; ring
  have hm31 : (31 : Int) = 2 ^ 5 - 1 := by norm_num
  have hm4095 : (4095 : Int) = 2 ^ 12 - 1 := by norm_num
  refine ⟨?_, ?_, ?_, ?_, ?_⟩
  · rw [e12, SnowflakeBits.pyShiftRight_add_mul Q _ 12 hs0 (by omega), hm31,
      SnowflakeBits.int_land_two_pow_sub_one 5]
    have e : W + D * 2 ^ 5 + (L - EPOCH_TIMESTAMP) * 2 ^ 10 =
        W + (D + (L - EPOCH_TIMESTAMP) * 2 ^ 5) * 2 ^ 5 := by ring
    rw [e, SnowflakeBits.emod_add_mul W _ 5 hw0 (by omega)]
  · rw [e17, SnowflakeBits.pyShiftRight_add_mul _ _ 17 (by linarith)
      (by norm_num at hWm ⊢; linarith), hm31,
      SnowflakeBits.int_land_two_pow_sub_one 5,
      SnowflakeBits.emod_add_mul D _ 5 hd0 (by omega)]
  · rw [hm4095, SnowflakeBits.int_land_two_pow_sub_one 12, e12,
      SnowflakeBits.emod_add_mul Q _ 12 hs0 (by omega)]
    exact hs0
  · rw [hm4095, SnowflakeBits.int_land_two_pow_sub_one 12, e12,
      SnowflakeBits.emod_add_mul Q _ 12 hs0 (by omega)]
    omega
  · rw [e22, SnowflakeBits.pyShiftRight_add_mul _ _ 22 (by linarith)
      (by norm_num at hWm hDm ⊢; linarith)]
    ring

theorem generated_id_bit_field_roundtrip_witness :
    Int.land (pyShiftRight 4329472 12) 31 =
        (⟨1, 1, 0, -1⟩ : SnowflakeState).worker_id ∧
    Int.land (pyShiftRight 4329472 17) 31 =
        (⟨1, 1, 0, -1⟩ : SnowflakeState).datacenter_id ∧
    0 ≤ Int.land 4329472 4095 ∧ Int.land 4329472 4095 ≤ 4095 ∧
    pyShiftRight 4329472 22 + EPOCH_TIMESTAMP =
        (⟨1, 1, 0, 1288834974658⟩ : SnowflakeState).last_timestamp :=
  generated_id_bit_field_roundtrip ⟨1, 1, 0, -1⟩ [1288834974658] 4329472
    ⟨1, 1, 0, 1288834974658⟩ (by decide) (by decide)

/-- Claim C7: construction fails exactly when `datacenter_id` or
`worker_id` is outside `0 .. 31`; `datacenter_id = 32` or
`worker_id = -1` fail, `datacenter_id = 0, worker_id = 31` succeeds, and
every successful construction starts with sequence `0` and the `-1`
last-seen sentinel. -/
theorem init_range_validation :
    (∀ d w : Int,
        (∃ e, SnowflakeIdGenerator.init d w = Except.error e) ↔
          ¬ (0 ≤ d ∧ d ≤ 31 ∧ 0 ≤ w ∧ w ≤ 31)) ∧
    (∀ (d w : Int) (s : SnowflakeState),
        SnowflakeIdGenerator.init d w = Except.ok s →
          s.sequence_number = 0 ∧ s.last_timestamp = -1) ∧
    (∃ e, SnowflakeIdGenerator.init 32 1 = Except.error e) ∧
    (∃ e, SnowflakeIdGenerator.init 1 (-1) = Except.error e) ∧
    SnowflakeIdGenerator.init 0 31 = Except.ok ⟨0, 31, 0, -1⟩ := by
  have herr : ∀ d w : Int, ¬ (0 ≤ d ∧ d ≤ 31 ∧ 0 ≤ w ∧ w ≤ 31) →
      ∃ e, SnowflakeIdGenerator.init d w = Except.error e := by
    intro d w hcon
    unfold SnowflakeIdGenerator.init SnowflakeIdGenerator.validate_ids
    simp only
      [show SnowflakeIdGenerator.calculate_max_value
          SnowflakeIdGenerator.DATACENTER_ID_BITS = 31 from by decide,
        show SnowflakeIdGenerator.calculate_max_value
          SnowflakeIdGenerator.WORKER_ID_BITS = 31 from by decide]
    by_cases hA : 0 ≤ d ∧ d ≤ 31
    · have hB : ¬ (0 ≤ w ∧ w ≤ 31) := by tauto
      rw [if_neg (not_not_intro hA), if_pos hB]
      exact ⟨_, rfl⟩
    · rw [if_pos hA]
      exact ⟨_, rfl⟩
  refine ⟨?_, ?_, ?_, ?_, by rfl⟩
  · intro d w
    constructor
    · rintro ⟨e, he⟩ hcon
      have hsucc : SnowflakeIdGenerator.init d w = Except.ok ⟨d, w, 0, -1⟩ := by
        unfold SnowflakeIdGenerator.init SnowflakeIdGenerator.validate_ids
        simp only
          [show SnowflakeIdGenerator.calculate_max_value
              SnowflakeIdGenerator.DATACENTER_ID_BITS = 31 from by decide,
            show SnowflakeIdGenerator.calculate_max_value
              SnowflakeIdGenerator.WORKER_ID_BITS = 31 from by decide]
        rw [if_neg (not_not_intro ⟨hcon.1, hcon.2.1⟩),
          if_neg (not_not_intro ⟨hcon.2.2.1, hcon.2.2.2⟩)]
      rw [hsucc] at he
      simp at he
    · exact herr d w
  · intro d w s h
    obtain ⟨rfl, _⟩ := SnowflakeIdGenerator.init_ok h
    exact ⟨rfl, rfl⟩
  · exact herr 32 1 (by omega)
  · exact herr 1 (-1) (by omega)

theorem init_range_validation_witness :
    (⟨5, 7, 0, -1⟩ : SnowflakeState).sequence_number = 0 ∧
      (⟨5, 7, 0, -1⟩ : SnowflakeState).last_timestamp = -1 :=
  init_range_validation.2.1 5 7 ⟨5, 7, 0, -1⟩ (by rfl)

/-- Claim C8 as stated is false: a fresh instance (last-seen sentinel
`-1`) accepts the clock reading `0`, which is far below the epoch, and
the call returns a negative identifier, outside `0 .. 2 ^ 64 - 1`; the
code applies no 41-bit mask to the timestamp delta. -/
theorem id_unsigned_64bit_counterexample :
    generate_id ⟨1, 1, 0, -1⟩ [0] =
      GenResult.ok (-5405765689543618560) ⟨1, 1, 0, 0⟩ ∧
    ¬ (0 ≤ (-5405765689543618560 : Int) ∧
        (-5405765689543618560 : Int) < 2 ^ 64) := by
  have hvalid : ValidState ⟨1, 1, 0, 0⟩ := by decide
  have hbuild : build_snowflake_id ⟨1, 1, 0, 0⟩ 0 = -5405765689543618560 := by
    rw [SnowflakeIdGenerator.build_snowflake_id_eq_sum _ _ hvalid]
    norm_num [SnowflakeIdGenerator.EPOCH_TIMESTAMP]
  have hgen : generate_id ⟨1, 1, 0, -1⟩ [0] =
      GenResult.ok (build_snowflake_id ⟨1, 1, 0, 0⟩ 0) ⟨1, 1, 0, 0⟩ := by
    simp only [generate_id]
    rw [if_neg (by decide), if_neg (by decide)]
  exact ⟨by rw [hgen, hbuild], by decide⟩

/-- Claim C8, amended: for every call whose effective timestamp lies in
the 41-bit window starting at the epoch, the returned identifier is in
`0 .. 2 ^ 64 - 1` (indeed below `2 ^ 63`) and the timestamp delta is in
`0 .. 2 ^ 41 - 1`. -/
theorem id_unsigned_64bit_of_epoch_window (s : SnowflakeState)
    (tr : List Int) (i : Int) (s' : SnowflakeState) (hv : ValidState s)
    (h : generate_id s tr = GenResult.ok i s')
    (h1 : EPOCH_TIMESTAMP ≤ s'.last_timestamp)
    (h2 : s'.last_timestamp < EPOCH_TIMESTAMP + 2 ^ 41) :
    0 ≤ i ∧ i < 2 ^ 64 ∧
      0 ≤ s'.last_timestamp - EPOCH_TIMESTAMP ∧
      s'.last_timestamp - EPOCH_TIMESTAMP < 2 ^ 41 := by
  obtain ⟨hv', hd, hw, hi, hk⟩ := SnowflakeIdGenerator.generate_id_ok hv h
  obtain ⟨hd0, hd1, hw0, hw1, hs0, hs1⟩ := hv'
  unfold stateKeyId at hi
  have hD0 : 0 ≤ s'.last_timestamp - EPOCH_TIMESTAMP := by omega
  have hD1 : s'.last_timestamp - EPOCH_TIMESTAMP < 2 ^ 41 := by omega
  have hT0 : 0 ≤ (s'.last_timestamp - EPOCH_TIMESTAMP) * 2 ^ 22 :=
    mul_nonneg hD0 (by norm_num)
  have hT1 : (s'.last_timestamp - EPOCH_TIMESTAMP) * 2 ^ 22 ≤
      (2 ^ 41 - 1) * 2 ^ 22 :=
    mul_le_mul_of_nonneg_right (by omega) (by norm_num)
  have hDm : s'.datacenter_id * 2 ^ 17 ≤ 31 * 2 ^ 17 :=
    mul_le_mul_of_nonneg_right hd1 (by norm_num)
  have hDm0 : 0 ≤ s'.datacenter_id * 2 ^ 17 := mul_nonneg hd0 (by norm_num)
  have hWm : s'.worker_id * 2 ^ 12 ≤ 31 * 2 ^ 12 :=
    mul_le_mul_of_nonneg_right hw1 (by norm_num)
  have hWm0 : 0 ≤ s'.worker_id * 2 ^ 12 := mul_nonneg hw0 (by norm_num)
  refine ⟨?_, ?_, hD0, hD1⟩
  · rw [hi]
    linarith
  · rw [hi]
    norm_num at hT1 hDm hWm ⊢
    linarith

theorem id_unsigned_64bit_of_epoch_window_witness :
    0 ≤ (4329472 : Int) ∧ (4329472 : Int) < 2 ^ 64 ∧
      0 ≤ (⟨1, 1, 0, 1288834974658⟩ : SnowflakeState).last_timestamp -
        EPOCH_TIMESTAMP ∧
      (⟨1, 1, 0, 1288834974658⟩ : SnowflakeState).last_timestamp -
        EPOCH_TIMESTAMP < 2 ^ 41 :=
  id_unsigned_64bit_of_epoch_window ⟨1, 1, 0, -1⟩ [1288834974658] 4329472
    ⟨1, 1, 0, 1288834974658⟩ (by decide) (by decide) (by decide) (by decide)

/-- Claim C9: once the module-level `_global_generator` is set, every
later `get_global_id_generator` call returns that same instance and
ignores its arguments; the first successful call is the one that
constructs it with its arguments. -/
theorem global_generator_single_construction :
    (∀ (d w : Int) (g : SnowflakeState) (glob' : Option SnowflakeState),
        get_global_id_generator none d w = Except.ok (g, glob') →
          glob' = some g ∧ SnowflakeIdGenerator.init d w = Except.ok g) ∧
    (∀ (g : SnowflakeState) (d w : Int),
        get_global_id_generator (some g) d w = Except.ok (g, some g)) := by
  constructor
  · intro d w g glob' h
    unfold get_global_id_generator at h
    cases hinit : SnowflakeIdGenerator.init d w with
    | error e =>
      rw [hinit] at h
      simp at h
    | ok g0 =>
      rw [hinit] at h
      simp only [Except.ok.injEq, Prod.mk.injEq] at h
      obtain ⟨h1, h2⟩ := h
      constructor
      · rw [← h2, h1]
      · rw [h1]
  · intro g d w
    rfl

theorem global_generator_single_construction_witness :
    ((some ⟨1, 1, 0, -1⟩ : Option SnowflakeState) = some ⟨1, 1, 0, -1⟩ ∧
      SnowflakeIdGenerator.init 1 1 = Except.ok ⟨1, 1, 0, -1⟩) ∧
    get_global_id_generator (some ⟨9, 9, 3, 5⟩) 2 4 =
      Except.ok (⟨9, 9, 3, 5⟩, some ⟨9, 9, 3, 5⟩) :=
  ⟨global_generator_single_construction.1 1 1 ⟨1, 1, 0, -1⟩
      (some ⟨1, 1, 0, -1⟩) (by rfl),
    global_generator_single_construction.2 ⟨9, 9, 3, 5⟩ 2 4⟩

/-- Claim C10: `create_unique_id_with_prefix` builds a brand-new generator
on every call (no process-wide singleton is consulted) and returns the
prefix followed by the decimal representation of the one identifier that
fresh instance produces; so two calls that observe the same clock reading
return the same string, and the per-instance uniqueness guarantee does not
extend across calls. -/
theorem unique_id_with_prefix_fresh_generator :
    (∀ (pre : String) (d w : Int) (clock : List Int) (g : SnowflakeState)
        (i : Int) (s' : SnowflakeState),
        SnowflakeIdGenerator.init d w = Except.ok g →
        generate_id g clock = GenResult.ok i s' →
          create_unique_id_with_prefix pre d w clock =
            StrResult.ok (pre ++ toString i)) ∧
    create_unique_id_with_prefix "ORD" 1 1 [1288834974658] =
      StrResult.ok ("ORD4329472") := by
  constructor
  · intro pre d w clock g i s' h1 h2
    unfold create_unique_id_with_prefix
    rw [h1]
    dsimp only
    rw [h2]
  · rfl

theorem unique_id_with_prefix_fresh_generator_witness :
    create_unique_id_with_prefix "A" 1 1 [1288834974658] =
      StrResult.ok ("A" ++ toString (4329472 : Int)) :=
  unique_id_with_prefix_fresh_generator.1 "A" 1 1 [1288834974658]
    ⟨1, 1, 0, -1⟩ 4329472 ⟨1, 1, 0, 1288834974658⟩ (by rfl) (by decide)
